import Mathlib

/-!
# SYN6658 hardware interface adapter (stm32f407)

A shallow embedding of `stm32f407_driver_syn6658_interface.c`.

* Memory bytes and machine integers are natural numbers; the conversions the
  C code performs on return values and assignments (`uint8_t`, `uint16_t`)
  are written out as `% 2^w`.
* The board support package (`uart.h`, `spi.h`, `wire.h`, `delay.h`) is not
  part of the translated file, so its primitives are the fields of a
  `Platform` record over an arbitrary board state.  Every adapter function is
  a function of the platform it runs on.
* A buffer passed by pointer is the list of bytes stored at that pointer; a
  primitive that writes through the pointer returns the new contents.
* Local array accesses are checked: an access outside the array is `none`.
-/

set_option autoImplicit false
set_option maxRecDepth 100000

namespace Syn6658

/-! ## Machine integers and bytes -/

/-- One byte of memory. -/
abbrev Byte := Nat

/-- Conversion to `uint8_t`. -/
def toU8 (n : Nat) : Nat := n % 256

/-- Conversion to `uint16_t`. -/
def toU16 (n : Nat) : Nat := n % 65536

/-! ## The platform primitives called by the adapter -/

/-- The clock modes of `spi.h`; the adapter only names `SPI_MODE_0`. -/
inductive spi_mode_t where
  | SPI_MODE_0
  | SPI_MODE_1
  | SPI_MODE_2
  | SPI_MODE_3
deriving DecidableEq, Repr

/-- The board support primitives the adapter forwards to, over a board state
`σ`.  A returned number is the primitive's C return value; a returned list
is the contents of the buffer the primitive was given a pointer to, after the
call. -/
structure Platform (σ : Type) where
  /-- The primitive `uart2_init(baud)` -/
  uart2_init : Nat → σ → Nat × σ
  /-- The primitive `uart2_deinit()` -/
  uart2_deinit : σ → Nat × σ
  /-- The primitive `uart2_read(buf, len)`: return value and the buffer afterwards -/
  uart2_read : List Byte → Nat → σ → Nat × List Byte × σ
  /-- The primitive `uart2_flush()` -/
  uart2_flush : σ → Nat × σ
  /-- The primitive `uart2_write(buf, len)` -/
  uart2_write : List Byte → Nat → σ → Nat × σ
  /-- The primitive `spi_init(mode)` -/
  spi_init : spi_mode_t → σ → Nat × σ
  /-- The primitive `spi_deinit()` -/
  spi_deinit : σ → Nat × σ
  /-- The primitive `spi_transmit(tx, rx, len)`: return value and the rx buffer afterwards -/
  spi_transmit : List Byte → List Byte → Nat → σ → Nat × List Byte × σ
  /-- The primitive `wire_init()` -/
  wire_init : σ → Nat × σ
  /-- The primitive `wire_deinit()` -/
  wire_deinit : σ → Nat × σ
  /-- The primitive `wire_read(value)`: return value and the value buffer afterwards -/
  wire_read : List Byte → σ → Nat × List Byte × σ
  /-- The primitive `delay_ms(ms)` -/
  delay_ms : Nat → σ → σ
  /-- The primitive `uart_write(buf, len)`: the debug channel -/
  uart_write : List Byte → Nat → σ → Nat × σ

/-- The return values of the primitives lie in the range of the C type the
adapter returns them at: `uint16_t` for `uart2_read`, `uint8_t` for the
rest. -/
structure Platform.InRange {σ : Type} (P : Platform σ) : Prop where
  uart2_init : ∀ baud s, (P.uart2_init baud s).1 < 256
  uart2_deinit : ∀ s, (P.uart2_deinit s).1 < 256
  uart2_read : ∀ buf len s, (P.uart2_read buf len s).1 < 65536
  uart2_flush : ∀ s, (P.uart2_flush s).1 < 256
  uart2_write : ∀ buf len s, (P.uart2_write buf len s).1 < 256
  spi_init : ∀ mode s, (P.spi_init mode s).1 < 256
  spi_deinit : ∀ s, (P.spi_deinit s).1 < 256
  spi_transmit : ∀ tx rx len s, (P.spi_transmit tx rx len s).1 < 256
  wire_init : ∀ s, (P.wire_init s).1 < 256
  wire_deinit : ∀ s, (P.wire_deinit s).1 < 256
  wire_read : ∀ value s, (P.wire_read value s).1 < 256

/-! ## The adapter functions -/

section Adapter

variable {σ : Type}

/-- The C function `uint8_t syn6658_interface_uart_init(void)` -/
def syn6658_interface_uart_init (P : Platform σ) (s : σ) : Nat × σ :=
  let r := P.uart2_init 9600 s
  (toU8 r.1, r.2)

/-- The C function `uint8_t syn6658_interface_uart_deinit(void)` -/
def syn6658_interface_uart_deinit (P : Platform σ) (s : σ) : Nat × σ :=
  let r := P.uart2_deinit s
  (toU8 r.1, r.2)

/-- The C function `uint16_t syn6658_interface_uart_read(uint8_t *buf, uint16_t len)` -/
def syn6658_interface_uart_read (P : Platform σ) (buf : List Byte) (len : Nat) (s : σ) :
    Nat × List Byte × σ :=
  let r := P.uart2_read buf len s
  (toU16 r.1, r.2.1, r.2.2)

/-- The C function `uint8_t syn6658_interface_uart_flush(void)` -/
def syn6658_interface_uart_flush (P : Platform σ) (s : σ) : Nat × σ :=
  let r := P.uart2_flush s
  (toU8 r.1, r.2)

/-- The C function `uint8_t syn6658_interface_uart_write(uint8_t *buf, uint16_t len)` -/
def syn6658_interface_uart_write (P : Platform σ) (buf : List Byte) (len : Nat) (s : σ) :
    Nat × σ :=
  let r := P.uart2_write buf len s
  (toU8 r.1, r.2)

/-- The C function `uint8_t syn6658_interface_spi_init(void)` -/
def syn6658_interface_spi_init (P : Platform σ) (s : σ) : Nat × σ :=
  let r := P.spi_init spi_mode_t.SPI_MODE_0 s
  (toU8 r.1, r.2)

/-- The C function `uint8_t syn6658_interface_spi_deinit(void)` -/
def syn6658_interface_spi_deinit (P : Platform σ) (s : σ) : Nat × σ :=
  let r := P.spi_deinit s
  (toU8 r.1, r.2)

/-- The C function `uint8_t syn6658_interface_spi_transmit(uint8_t *tx, uint8_t *rx, uint16_t len)` -/
def syn6658_interface_spi_transmit (P : Platform σ) (tx rx : List Byte) (len : Nat) (s : σ) :
    Nat × List Byte × σ :=
  let r := P.spi_transmit tx rx len s
  (toU8 r.1, r.2.1, r.2.2)

/-- The C function `uint8_t syn6658_interface_gpio_ready_init(void)` -/
def syn6658_interface_gpio_ready_init (P : Platform σ) (s : σ) : Nat × σ :=
  let r := P.wire_init s
  (toU8 r.1, r.2)

/-- The C function `uint8_t syn6658_interface_gpio_ready_deinit(void)` -/
def syn6658_interface_gpio_ready_deinit (P : Platform σ) (s : σ) : Nat × σ :=
  let r := P.wire_deinit s
  (toU8 r.1, r.2)

/-- The C function `uint8_t syn6658_interface_gpio_ready_read(uint8_t *value)` -/
def syn6658_interface_gpio_ready_read (P : Platform σ) (value : List Byte) (s : σ) :
    Nat × List Byte × σ :=
  let r := P.wire_read value s
  (toU8 r.1, r.2.1, r.2.2)

/-- The C function `void syn6658_interface_delay_ms(uint32_t ms)` -/
def syn6658_interface_delay_ms (P : Platform σ) (ms : Nat) (s : σ) : Unit × σ :=
  ((), P.delay_ms ms s)

end Adapter

/-! ## The C library functions used by `syn6658_interface_debug_print` -/

/-- A variadic argument after default argument promotion. -/
inductive Arg where
  | int (v : Int)
  | str (s : List Byte)
deriving DecidableEq, Repr

/-- A formatting engine: the complete text a format string and its arguments
render to, before any length limit. -/
abbrev Formatter := List Byte → List Arg → List Byte

/-- The C library call `memset(buf, c, n)` on an array holding `buf`: the first `n` bytes become
`(unsigned char)c`; `none` when `n` reaches past the array. -/
def memset (buf : List Byte) (c : Nat) (n : Nat) : Option (List Byte) :=
  if n ≤ buf.length then some (List.replicate n (toU8 c) ++ buf.drop n) else none

/-- The C library call `vsnprintf(buf, n, fmt, args)` on an array holding
`buf`, for the formatting engine `F`, as the C standard defines it: with
`n = 0` nothing is stored; otherwise the first `n - 1` characters of the
rendered text are stored from index 0, followed by a zero byte.  The results are the array afterwards and the return value (the
length of the complete text); `none` when a byte would be stored past the
array. -/
def vsnprintf (F : Formatter) (buf : List Byte) (n : Nat) (fmt : List Byte) (args : List Arg) :
    Option (List Byte × Nat) :=
  let text := F fmt args
  if n = 0 then some (buf, text.length)
  else
    let out := text.take (n - 1) ++ [0]
    if out.length ≤ buf.length then some (out ++ buf.drop out.length, text.length) else none

/-- The C library call `strlen(buf)` on an array holding `buf`: the index of the first zero
byte; `none` when the scan leaves the array without meeting one. -/
def strlen : List Byte → Option Nat
  | [] => none
  | c :: rest => if c = 0 then some 0 else (strlen rest).map (· + 1)

/-- The C function `void syn6658_interface_debug_print(const char *const fmt, ...)`.
`junk` gives the indeterminate initial contents of the local array
`char str[256]`. -/
def syn6658_interface_debug_print {σ : Type} (F : Formatter) (P : Platform σ)
    (junk : Nat → Byte) (fmt : List Byte) (args : List Arg) (s : σ) : Option (Unit × σ) :=
  let str := (List.range 256).map junk
  (memset str 0 (1 * 256)).bind fun str =>
  (vsnprintf F str 255 fmt args).bind fun r =>
  let str := r.1
  (strlen str).bind fun n =>
  let len := toU16 n
  let w := P.uart_write str len s
  some ((), w.2)

/-- The C string stored at the start of `a`: the bytes before the first zero
byte (all of `a` when it holds none). -/
def cstring : List Byte → List Byte
  | [] => []
  | c :: rest => if c = 0 then [] else c :: cstring rest

/-! ## A formatting engine for the conversions `%d`, `%c`, `%s`, `%%` -/

/-- The decimal digits of a natural number, as ASCII bytes. -/
def decimal (n : Nat) : List Byte := (Nat.toDigits 10 n).map Char.toNat

/-- The text one conversion specifier produces for one argument: `d` (100)
renders an `int` in signed decimal, `c` (99) stores the `int` converted to
`unsigned char`, `s` (115) copies a string up to its terminator. -/
def convert (spec : Byte) (a : Arg) : Option (List Byte) :=
  match a with
  | Arg.int v =>
      if spec = 100 then some (if v < 0 then 45 :: decimal v.natAbs else decimal v.natAbs)
      else if spec = 99 then some [(v % 256).toNat]
      else none
  | Arg.str t => if spec = 115 then some (cstring t) else none

/-- The text of a format string from a given position; `pending` says that
the byte before was an unmatched `%` (37).  The format ends at its end or at a
zero byte.  Rendering stops at a directive outside `%d %c %s %%` or without a
matching argument, where C leaves the behaviour undefined. -/
def renderFrom : Bool → List Byte → List Arg → List Byte
  | _, [], _ => []
  | false, c :: rest, args =>
      if c = 0 then []
      else if c = 37 then renderFrom true rest args
      else c :: renderFrom false rest args
  | true, c :: rest, args =>
      if c = 37 then 37 :: renderFrom false rest args
      else
        match args with
        | [] => []
        | a :: more =>
            match convert c a with
            | some out => out ++ renderFrom false rest more
            | none => []

/-- Modelled from the C standard (the C library is outside the repository):
the text the `printf` family renders, restricted to the directives `%d`, `%c`,
`%s` and `%%`.  The general statements below take the formatting engine as a
parameter; this one serves the concrete calls. -/
def render : Formatter := renderFrom false

/-- The bytes of an ASCII string literal. -/
def ascii (t : String) : List Byte := t.toList.map Char.toNat

/-! ## Observing the primitive calls -/

/-- One call of a platform primitive, with the arguments it was given; a
buffer argument is recorded by the bytes stored at the pointer. -/
inductive Call where
  | uart2_init (baud : Nat)
  | uart2_deinit
  | uart2_read (buf : List Byte) (len : Nat)
  | uart2_flush
  | uart2_write (buf : List Byte) (len : Nat)
  | spi_init (mode : spi_mode_t)
  | spi_deinit
  | spi_transmit (tx rx : List Byte) (len : Nat)
  | wire_init
  | wire_deinit
  | wire_read (value : List Byte)
  | delay_ms (ms : Nat)
  | uart_write (buf : List Byte) (len : Nat)
deriving DecidableEq, Repr

/-- The peripheral a primitive belongs to. -/
inductive Channel where
  | uart2
  | spi
  | ready
  | timer
  | debug
deriving DecidableEq, Repr

/-- The peripheral a call drives. -/
def Call.channel : Call → Channel
  | Call.uart2_init _ => Channel.uart2
  | Call.uart2_deinit => Channel.uart2
  | Call.uart2_read _ _ => Channel.uart2
  | Call.uart2_flush => Channel.uart2
  | Call.uart2_write _ _ => Channel.uart2
  | Call.spi_init _ => Channel.spi
  | Call.spi_deinit => Channel.spi
  | Call.spi_transmit _ _ _ => Channel.spi
  | Call.wire_init => Channel.ready
  | Call.wire_deinit => Channel.ready
  | Call.wire_read _ => Channel.ready
  | Call.delay_ms _ => Channel.timer
  | Call.uart_write _ _ => Channel.debug

/-- The message a write call hands over: the first `len` bytes at `buf`. -/
def message (buf : List Byte) (len : Nat) : List Byte := buf.take len

/-- The platform `P` with a log of the calls made: every primitive behaves as
in `P` and appends its call to the log. -/
def Platform.logged {σ : Type} (P : Platform σ) : Platform (σ × List Call) where
  uart2_init baud st :=
    let r := P.uart2_init baud st.1
    (r.1, (r.2, st.2 ++ [Call.uart2_init baud]))
  uart2_deinit st :=
    let r := P.uart2_deinit st.1
    (r.1, (r.2, st.2 ++ [Call.uart2_deinit]))
  uart2_read buf len st :=
    let r := P.uart2_read buf len st.1
    (r.1, r.2.1, (r.2.2, st.2 ++ [Call.uart2_read buf len]))
  uart2_flush st :=
    let r := P.uart2_flush st.1
    (r.1, (r.2, st.2 ++ [Call.uart2_flush]))
  uart2_write buf len st :=
    let r := P.uart2_write buf len st.1
    (r.1, (r.2, st.2 ++ [Call.uart2_write buf len]))
  spi_init mode st :=
    let r := P.spi_init mode st.1
    (r.1, (r.2, st.2 ++ [Call.spi_init mode]))
  spi_deinit st :=
    let r := P.spi_deinit st.1
    (r.1, (r.2, st.2 ++ [Call.spi_deinit]))
  spi_transmit tx rx len st :=
    let r := P.spi_transmit tx rx len st.1
    (r.1, r.2.1, (r.2.2, st.2 ++ [Call.spi_transmit tx rx len]))
  wire_init st :=
    let r := P.wire_init st.1
    (r.1, (r.2, st.2 ++ [Call.wire_init]))
  wire_deinit st :=
    let r := P.wire_deinit st.1
    (r.1, (r.2, st.2 ++ [Call.wire_deinit]))
  wire_read value st :=
    let r := P.wire_read value st.1
    (r.1, r.2.1, (r.2.2, st.2 ++ [Call.wire_read value]))
  delay_ms ms st := (P.delay_ms ms st.1, st.2 ++ [Call.delay_ms ms])
  uart_write buf len st :=
    let r := P.uart_write buf len st.1
    (r.1, (r.2, st.2 ++ [Call.uart_write buf len]))

/-- The platform `P` with the return value of the debug channel write
replaced by `status`; its effect on the board is that of `P`. -/
def Platform.withDebugStatus {σ : Type} (P : Platform σ) (status : Nat) : Platform σ :=
  { P with uart_write := fun buf len s => (status, (P.uart_write buf len s).2) }

/-! ## A simulated board -/

/-- The state of a simulated board. -/
structure Board where
  /-- the baud rate of the chip UART, when it is initialised -/
  uart2_baud : Option Nat
  /-- the bytes sent on the chip UART so far -/
  uart2_tx : List Byte
  /-- the bytes received on the chip UART and not yet read -/
  uart2_rx : List Byte
  /-- the clock mode of the SPI bus, when it is initialised -/
  spi_mode : Option spi_mode_t
  /-- the bytes shifted out on the SPI bus so far -/
  spi_tx : List Byte
  /-- whether the ready pin is configured as an input -/
  ready_open : Bool
  /-- the level of the ready pin -/
  ready_level : Bool
  /-- the bytes sent on the debug channel so far -/
  debug_tx : List Byte
  /-- the time spent in delays -/
  elapsed_ms : Nat
deriving DecidableEq, Repr

/-- The level of the ready pin as a byte. -/
def Board.level (b : Board) : Byte := if b.ready_level then 1 else 0

/-- Modelled from the spec: the platform primitives `uart2_*`, `spi_*`,
`wire_*`, `delay_ms` and `uart_write` (board support code outside the
translated file), as a simulated board.  Each returns 0 on success and 1 on
failure; an operation on a peripheral that is not initialised fails;
`uart2_read` returns the count of bytes read; `wire_read` stores the pin level
(0 or 1) in the one byte at `value`. -/
def board : Platform Board where
  uart2_init baud b := (0, { b with uart2_baud := some baud })
  uart2_deinit b :=
    match b.uart2_baud with
    | none => (1, b)
    | some _ => (0, { b with uart2_baud := none })
  uart2_read buf len b :=
    match b.uart2_baud with
    | none => (0, buf, b)
    | some _ =>
        let n := min (min len buf.length) b.uart2_rx.length
        (toU16 n, b.uart2_rx.take n ++ buf.drop n, { b with uart2_rx := b.uart2_rx.drop n })
  uart2_flush b :=
    match b.uart2_baud with
    | none => (1, b)
    | some _ => (0, { b with uart2_rx := [] })
  uart2_write buf len b :=
    match b.uart2_baud with
    | none => (1, b)
    | some _ => (0, { b with uart2_tx := b.uart2_tx ++ message buf len })
  spi_init mode b := (0, { b with spi_mode := some mode })
  spi_deinit b :=
    match b.spi_mode with
    | none => (1, b)
    | some _ => (0, { b with spi_mode := none })
  spi_transmit tx rx len b :=
    match b.spi_mode with
    | none => (1, rx, b)
    | some _ =>
        (0, List.replicate (min len rx.length) 0 ++ rx.drop len,
          { b with spi_tx := b.spi_tx ++ message tx len })
  wire_init b := (0, { b with ready_open := true })
  wire_deinit b := if b.ready_open then (0, { b with ready_open := false }) else (1, b)
  wire_read value b := if b.ready_open then (0, value.set 0 b.level, b) else (1, value, b)
  delay_ms ms b := { b with elapsed_ms := b.elapsed_ms + ms }
  uart_write buf len b := (0, { b with debug_tx := b.debug_tx ++ message buf len })

/-- The board after reset. -/
def Board.reset : Board where
  uart2_baud := none
  uart2_tx := []
  uart2_rx := []
  spi_mode := none
  spi_tx := []
  ready_open := false
  ready_level := false
  debug_tx := []
  elapsed_ms := 0

/-- Modelled from the spec: the contract of `wire_read` (board support code
outside the translated file).  When it returns 0 it has stored exactly one
byte through `value`, the current level of the ready pin, which is 0 or 1. -/
def WireReadContract {σ : Type} (P : Platform σ) (level : σ → Byte) : Prop :=
  ∀ value s, (P.wire_read value s).1 = 0 →
    (P.wire_read value s).2.1 = value.set 0 (level s) ∧ level s ≤ 1

/-! ## The status-returning operations -/

/-- The ten adapter operations that return a status code, with their
arguments. -/
inductive StatusOp where
  | uart_init
  | uart_deinit
  | uart_flush
  | uart_write (buf : List Byte) (len : Nat)
  | spi_init
  | spi_deinit
  | spi_transmit (tx rx : List Byte) (len : Nat)
  | gpio_ready_init
  | gpio_ready_deinit
  | gpio_ready_read (value : List Byte)
deriving DecidableEq, Repr

/-- The status an adapter operation returns and the board state it leaves. -/
def StatusOp.run {σ : Type} (P : Platform σ) : StatusOp → σ → Nat × σ
  | StatusOp.uart_init, s => syn6658_interface_uart_init P s
  | StatusOp.uart_deinit, s => syn6658_interface_uart_deinit P s
  | StatusOp.uart_flush, s => syn6658_interface_uart_flush P s
  | StatusOp.uart_write buf len, s => syn6658_interface_uart_write P buf len s
  | StatusOp.spi_init, s => syn6658_interface_spi_init P s
  | StatusOp.spi_deinit, s => syn6658_interface_spi_deinit P s
  | StatusOp.spi_transmit tx rx len, s =>
      let r := syn6658_interface_spi_transmit P tx rx len s
      (r.1, r.2.2)
  | StatusOp.gpio_ready_init, s => syn6658_interface_gpio_ready_init P s
  | StatusOp.gpio_ready_deinit, s => syn6658_interface_gpio_ready_deinit P s
  | StatusOp.gpio_ready_read value, s =>
      let r := syn6658_interface_gpio_ready_read P value s
      (r.1, r.2.2)

/-- The platform primitive that corresponds to an adapter operation: the
status it returns and the board state it leaves. -/
def StatusOp.primitive {σ : Type} (P : Platform σ) : StatusOp → σ → Nat × σ
  | StatusOp.uart_init, s => P.uart2_init 9600 s
  | StatusOp.uart_deinit, s => P.uart2_deinit s
  | StatusOp.uart_flush, s => P.uart2_flush s
  | StatusOp.uart_write buf len, s => P.uart2_write buf len s
  | StatusOp.spi_init, s => P.spi_init spi_mode_t.SPI_MODE_0 s
  | StatusOp.spi_deinit, s => P.spi_deinit s
  | StatusOp.spi_transmit tx rx len, s =>
      let r := P.spi_transmit tx rx len s
      (r.1, r.2.2)
  | StatusOp.gpio_ready_init, s => P.wire_init s
  | StatusOp.gpio_ready_deinit, s => P.wire_deinit s
  | StatusOp.gpio_ready_read value, s =>
      let r := P.wire_read value s
      (r.1, r.2.2)

/-- The call of the corresponding platform primitive. -/
def StatusOp.call : StatusOp → Call
  | StatusOp.uart_init => Call.uart2_init 9600
  | StatusOp.uart_deinit => Call.uart2_deinit
  | StatusOp.uart_flush => Call.uart2_flush
  | StatusOp.uart_write buf len => Call.uart2_write buf len
  | StatusOp.spi_init => Call.spi_init spi_mode_t.SPI_MODE_0
  | StatusOp.spi_deinit => Call.spi_deinit
  | StatusOp.spi_transmit tx rx len => Call.spi_transmit tx rx len
  | StatusOp.gpio_ready_init => Call.wire_init
  | StatusOp.gpio_ready_deinit => Call.wire_deinit
  | StatusOp.gpio_ready_read value => Call.wire_read value

/-- A board with the chip UART initialised and 300 received bytes pending. -/
def Board.listening : Board :=
  { Board.reset with uart2_baud := some 9600, uart2_rx := List.replicate 300 7 }

/-- A board with the ready pin configured and high. -/
def Board.ready : Board :=
  { Board.reset with ready_open := true, ready_level := true }

/-- The part of the simulated board that belongs to the chip transport: the
chip UART, the SPI bus and the ready pin. -/
def Board.transport (b : Board) :
    Option Nat × List Byte × List Byte × Option spi_mode_t × List Byte × Bool × Bool :=
  (b.uart2_baud, b.uart2_tx, b.uart2_rx, b.spi_mode, b.spi_tx, b.ready_open, b.ready_level)

/-! ## Auxiliary facts -/

theorem toU8_of_lt {n : Nat} (h : n < 256) : toU8 n = n := Nat.mod_eq_of_lt h

theorem toU16_of_lt {n : Nat} (h : n < 65536) : toU16 n = n := Nat.mod_eq_of_lt h

/-- After the `memset` the local array holds 256 zero bytes, whatever it held
before. -/
theorem memset_local (junk : Nat → Byte) :
    memset ((List.range 256).map junk) 0 (1 * 256) = some (List.replicate 256 0) := by
  have hlen : ((List.range 256).map junk).length = 256 := by
    rw [List.length_map, List.length_range]
  have hdrop : ((List.range 256).map junk).drop 256 = [] :=
    List.drop_eq_nil_of_le (Nat.le_of_eq hlen)
  unfold memset
  rw [hlen, Nat.one_mul, if_pos (Nat.le_refl _), hdrop, List.append_nil]
  rfl

/-- The text `vsnprintf` stores under the limit 255: at most 254 characters. -/
theorem length_take_254 (text : List Byte) : (text.take 254).length ≤ 254 := by
  simp [List.length_take]

/-- What `vsnprintf` with limit 255 leaves in an array of 256 bytes. -/
theorem vsnprintf_local (F : Formatter) (buf : List Byte) (hbuf : buf.length = 256)
    (fmt : List Byte) (args : List Arg) :
    vsnprintf F buf 255 fmt args =
      some ((F fmt args).take 254 ++ 0 :: buf.drop (((F fmt args).take 254).length + 1),
        (F fmt args).length) := by
  have h := length_take_254 (F fmt args)
  have h2 : min 254 (F fmt args).length + 1 ≤ buf.length := by
    rw [hbuf]; simp only [List.length_take] at h; omega
  simp [vsnprintf, h2]

/-- The length scan stops at the first zero byte. -/
theorem strlen_append_zero (a rest : List Byte) :
    strlen (a ++ 0 :: rest) = some (cstring a).length := by
  induction a with
  | nil => simp [strlen, cstring]
  | cons c a ih =>
      by_cases hc : c = 0
      · simp [strlen, cstring, hc]
      · simp [strlen, cstring, hc, ih]

/-- The first bytes of an array that starts with `a` and a zero byte, up to
the length of the C string in `a`. -/
theorem message_append_zero (a rest : List Byte) :
    message (a ++ 0 :: rest) (cstring a).length = cstring a := by
  induction a with
  | nil => simp [message, cstring]
  | cons c a ih =>
      by_cases hc : c = 0
      · simp [message, cstring, hc]
      · simp only [message] at ih
        simp [message, cstring, hc, ih]

theorem cstring_length_le (a : List Byte) : (cstring a).length ≤ a.length := by
  induction a with
  | nil => simp [cstring]
  | cons c a ih =>
      by_cases hc : c = 0
      · simp [cstring, hc]
      · simp [cstring, hc]; omega

theorem cstring_nonzero (a : List Byte) : ∀ b ∈ cstring a, b ≠ 0 := by
  induction a with
  | nil => simp [cstring]
  | cons c a ih =>
      by_cases hc : c = 0
      · simp [cstring, hc]
      · intro b hb
        simp only [cstring, hc, if_false, List.mem_cons] at hb
        rcases hb with rfl | hb
        · exact hc
        · exact ih b hb

theorem cstring_eq_self (a : List Byte) (h : ∀ b ∈ a, b ≠ 0) : cstring a = a := by
  induction a with
  | nil => simp [cstring]
  | cons c a ih =>
      have hc : c ≠ 0 := h c (List.mem_cons_self _ _)
      have ha : ∀ b ∈ a, b ≠ 0 := fun b hb => h b (List.mem_cons_of_mem _ hb)
      simp [cstring, hc, ih ha]

/-- The whole run of `syn6658_interface_debug_print`: it always reaches the
single `uart_write` call, with the local array holding the first 254
characters of the text followed by zero bytes, and with the length of the
C string in those characters. -/
theorem debug_print_run {σ : Type} (F : Formatter) (P : Platform σ) (junk : Nat → Byte)
    (fmt : List Byte) (args : List Arg) (s : σ) :
    syn6658_interface_debug_print F P junk fmt args s =
      some ((), (P.uart_write
        ((F fmt args).take 254 ++ 0 :: List.replicate (255 - ((F fmt args).take 254).length) 0)
        (cstring ((F fmt args).take 254)).length s).2) := by
  have h := length_take_254 (F fmt args)
  have h1 := cstring_length_le ((F fmt args).take 254)
  have h3 : 256 - (((F fmt args).take 254).length + 1) = 255 - ((F fmt args).take 254).length := by
    omega
  dsimp only [syn6658_interface_debug_print]
  rw [memset_local, Option.some_bind, vsnprintf_local F _ (List.length_replicate _ _), Option.some_bind]
  simp only [List.drop_replicate]
  rw [strlen_append_zero, Option.some_bind, toU16_of_lt (by omega), h3]

/-- The same run on the logging platform. -/
theorem debug_print_logged {σ : Type} (F : Formatter) (P : Platform σ) (junk : Nat → Byte)
    (fmt : List Byte) (args : List Arg) (s : σ) (tr : List Call) :
    syn6658_interface_debug_print F P.logged junk fmt args (s, tr) =
      some ((), ((P.uart_write
        ((F fmt args).take 254 ++ 0 :: List.replicate (255 - ((F fmt args).take 254).length) 0)
        (cstring ((F fmt args).take 254)).length s).2,
        tr ++ [Call.uart_write
          ((F fmt args).take 254 ++ 0 :: List.replicate (255 - ((F fmt args).take 254).length) 0)
          (cstring ((F fmt args).take 254)).length])) := by
  rw [debug_print_run]
  rfl

/-- The simulated board returns values within the range of their C type. -/
theorem board_inRange : board.InRange where
  uart2_init := by intro baud s; simp [board]
  uart2_deinit := by intro s; simp only [board]; split <;> simp
  uart2_read := by
    intro buf len s; simp only [board]; split
    · simp
    · exact Nat.mod_lt _ (by decide)
  uart2_flush := by intro s; simp only [board]; split <;> simp
  uart2_write := by intro buf len s; simp only [board]; split <;> simp
  spi_init := by intro mode s; simp [board]
  spi_deinit := by intro s; simp only [board]; split <;> simp
  spi_transmit := by intro tx rx len s; simp only [board]; split <;> simp
  wire_init := by intro s; simp [board]
  wire_deinit := by intro s; simp only [board]; split <;> simp
  wire_read := by intro value s; simp only [board]; split <;> simp

/-- The simulated board meets the contract of `wire_read`. -/
theorem board_wireReadContract : WireReadContract board Board.level := by
  intro value s h
  simp only [board] at h ⊢
  split at h
  · rename_i hopen
    simp only [hopen, if_true]
    refine ⟨trivial, ?_⟩
    unfold Board.level
    split <;> simp
  · simp at h

/-- In an array that starts with `a` and a zero byte, the byte at the length
of the C string in `a` is zero. -/
theorem getElem?_cstring_length (a rest : List Byte) :
    (a ++ 0 :: rest)[(cstring a).length]? = some 0 := by
  induction a with
  | nil => simp [cstring]
  | cons c a ih =>
      by_cases hc : c = 0
      · simp [cstring, hc]
      · simpa [cstring, hc] using ih

/-- With the limit 255 `vsnprintf` leaves the last byte of a 256-byte array as
it was. -/
theorem vsnprintf_local_drop (F : Formatter) (buf : List Byte)
    (fmt : List Byte) (args : List Arg) :
    ((F fmt args).take 254 ++ 0 :: buf.drop (((F fmt args).take 254).length + 1)).drop 255 =
      buf.drop 255 := by
  have h := length_take_254 (F fmt args)
  generalize (F fmt args).take 254 = t at h
  have e : t ++ 0 :: buf.drop (t.length + 1) = (t ++ [0]) ++ buf.drop (t.length + 1) := by simp
  have e2 : 255 = (t ++ [0]).length + (254 - t.length) := by
    simp only [List.length_append, List.length_singleton]; omega
  rw [e]
  conv_lhs => rw [e2]
  rw [List.drop_append, List.drop_drop]
  congr 1
  omega

/-! ## The debug print: truncation and the transmitted message -/

/-- C1 (as stated, fails): the format of 256 letters `a` renders to a text
longer than 255 characters, and the message `syn6658_interface_debug_print`
hands to `uart_write` is its first 254 characters with length 254, which is
not the text truncated to 255 characters. -/
theorem debug_print_truncation_to_255_fails :
    255 < (render (List.replicate 256 97) []).length ∧
    syn6658_interface_debug_print render board.logged (fun _ => 255) (List.replicate 256 97) []
        (Board.reset, []) =
      some ((), ({ Board.reset with debug_tx := List.replicate 254 97 },
        [Call.uart_write (List.replicate 254 97 ++ [0, 0]) 254])) ∧
    message (List.replicate 254 97 ++ [0, 0]) 254 ≠ (render (List.replicate 256 97) []).take 255 ∧
    (message (List.replicate 254 97 ++ [0, 0]) 254).length ≠ 255 :=
  ⟨by decide, by rfl, by decide, by decide⟩

/-- C1 (amended): for every formatting engine, format and arguments whose
rendered text is longer than 254 characters and has no zero byte among its
first 254 characters, `syn6658_interface_debug_print` makes one `uart_write`
call, with length 254, whose message is exactly the first 254 characters of
the rendered text. -/
theorem debug_print_truncates_to_254 {σ : Type} (F : Formatter) (P : Platform σ)
    (junk : Nat → Byte) (fmt : List Byte) (args : List Arg) (s : σ) (tr : List Call)
    (hlong : 254 < (F fmt args).length) (hnz : ∀ b ∈ (F fmt args).take 254, b ≠ 0) :
    ∃ buf, syn6658_interface_debug_print F P.logged junk fmt args (s, tr) =
        some ((), ((P.uart_write buf 254 s).2, tr ++ [Call.uart_write buf 254])) ∧
      message buf 254 = (F fmt args).take 254 ∧ (message buf 254).length = 254 := by
  have hlen : ((F fmt args).take 254).length = 254 := by
    rw [List.length_take]; omega
  have hc : cstring ((F fmt args).take 254) = (F fmt args).take 254 := cstring_eq_self _ hnz
  have hrun := debug_print_logged F P junk fmt args s tr
  have hmsg := message_append_zero ((F fmt args).take 254)
    (List.replicate (255 - ((F fmt args).take 254).length) 0)
  rw [hc, hlen] at hrun hmsg
  exact ⟨_, hrun, hmsg, by rw [hmsg, hlen]⟩

/-- C1 (amended), at a text of 300 letters `a` on the simulated board. -/
theorem debug_print_truncates_to_254_witness :
    254 < (render (List.replicate 300 97) []).length ∧
    (∀ b ∈ (render (List.replicate 300 97) []).take 254, b ≠ 0) ∧
    ∃ buf, syn6658_interface_debug_print render board.logged (fun _ => 255)
          (List.replicate 300 97) [] (Board.reset, []) =
        some ((), ((board.uart_write buf 254 Board.reset).2, [] ++ [Call.uart_write buf 254])) ∧
      message buf 254 = (render (List.replicate 300 97) []).take 254 ∧
      (message buf 254).length = 254 :=
  ⟨by decide, by decide,
    debug_print_truncates_to_254 render board (fun _ => 255) (List.replicate 300 97) []
      Board.reset [] (by decide) (by decide)⟩

/-- C2 (as stated, fails): the format of 255 letters `a` renders to a text of
255 characters without a zero byte, which fits the 256-byte array together
with its terminator, yet the message handed to `uart_write` is only its first
254 characters. -/
theorem debug_print_exact_at_255_fails :
    (render (List.replicate 255 97) []).length + 1 ≤ 256 ∧
    (∀ b ∈ render (List.replicate 255 97) [], b ≠ 0) ∧
    syn6658_interface_debug_print render board.logged (fun _ => 255) (List.replicate 255 97) []
        (Board.reset, []) =
      some ((), ({ Board.reset with debug_tx := List.replicate 254 97 },
        [Call.uart_write (List.replicate 254 97 ++ [0, 0]) 254])) ∧
    message (List.replicate 254 97 ++ [0, 0]) 254 ≠ render (List.replicate 255 97) [] ∧
    254 ≠ (render (List.replicate 255 97) []).length :=
  ⟨by decide, by decide, by rfl, by decide, by decide⟩

/-- C2 (amended): for every formatting engine, format and arguments whose
rendered text has at most 254 characters and contains no zero byte,
`syn6658_interface_debug_print` makes exactly one `uart_write` call, whose
length is the length of the rendered text and whose message is exactly the
rendered text; and `debug_print("value=%d", 42)` makes one call of length 8
whose message is the ASCII bytes of `value=42`. -/
theorem debug_print_transmits_text {σ : Type} (F : Formatter) (P : Platform σ)
    (junk : Nat → Byte) (fmt : List Byte) (args : List Arg) (s : σ) (tr : List Call)
    (hfit : (F fmt args).length ≤ 254) (hnz : ∀ b ∈ F fmt args, b ≠ 0) :
    (∃ buf, syn6658_interface_debug_print F P.logged junk fmt args (s, tr) =
        some ((), ((P.uart_write buf (F fmt args).length s).2,
          tr ++ [Call.uart_write buf (F fmt args).length])) ∧
      message buf (F fmt args).length = F fmt args) ∧
    (∃ buf, syn6658_interface_debug_print render P.logged junk (ascii "value=%d") [Arg.int 42]
          (s, tr) =
        some ((), ((P.uart_write buf 8 s).2, tr ++ [Call.uart_write buf 8])) ∧
      message buf 8 = ascii "value=42" ∧
      ascii "value=42" = [118, 97, 108, 117, 101, 61, 52, 50]) := by
  constructor
  · have ht : (F fmt args).take 254 = F fmt args := List.take_of_length_le hfit
    have hc : cstring (F fmt args) = F fmt args := cstring_eq_self _ hnz
    have hrun := debug_print_logged F P junk fmt args s tr
    have hmsg := message_append_zero ((F fmt args).take 254)
      (List.replicate (255 - ((F fmt args).take 254).length) 0)
    rw [ht, hc] at hrun hmsg
    exact ⟨_, hrun, hmsg⟩
  · have hr : render (ascii "value=%d") [Arg.int 42] = ascii "value=42" := by decide
    have ht : (ascii "value=42").take 254 = ascii "value=42" := by decide
    have hc : cstring (ascii "value=42") = ascii "value=42" := by decide
    have hl : (ascii "value=42").length = 8 := by decide
    have hrun := debug_print_logged render P junk (ascii "value=%d") [Arg.int 42] s tr
    have hmsg := message_append_zero ((render (ascii "value=%d") [Arg.int 42]).take 254)
      (List.replicate (255 - ((render (ascii "value=%d") [Arg.int 42]).take 254).length) 0)
    rw [hr, ht, hc, hl] at hrun hmsg
    exact ⟨_, hrun, hmsg, by decide⟩

/-- C2 (amended), at `debug_print("n=%d;", -5)` on the simulated board. -/
theorem debug_print_transmits_text_witness :
    (render (ascii "n=%d;") [Arg.int (-5)]).length ≤ 254 ∧
    (∀ b ∈ render (ascii "n=%d;") [Arg.int (-5)], b ≠ 0) ∧
    ((∃ buf, syn6658_interface_debug_print render board.logged (fun i => i) (ascii "n=%d;")
          [Arg.int (-5)] (Board.reset, []) =
        some ((), ((board.uart_write buf (render (ascii "n=%d;") [Arg.int (-5)]).length
            Board.reset).2,
          [] ++ [Call.uart_write buf (render (ascii "n=%d;") [Arg.int (-5)]).length])) ∧
      message buf (render (ascii "n=%d;") [Arg.int (-5)]).length =
        render (ascii "n=%d;") [Arg.int (-5)]) ∧
    (∃ buf, syn6658_interface_debug_print render board.logged (fun i => i) (ascii "value=%d")
          [Arg.int 42] (Board.reset, []) =
        some ((), ((board.uart_write buf 8 Board.reset).2, [] ++ [Call.uart_write buf 8])) ∧
      message buf 8 = ascii "value=42" ∧
      ascii "value=42" = [118, 97, 108, 117, 101, 61, 52, 50])) :=
  ⟨by decide, by decide,
    debug_print_transmits_text render board (fun i => i) (ascii "n=%d;") [Arg.int (-5)]
      Board.reset [] (by decide) (by decide)⟩

/-- C3: for every formatting engine, format and arguments,
`syn6658_interface_debug_print` stays inside its 256-byte array.  The
`memset` fills the array; on the filled array, as on any 256-byte array,
`vsnprintf` with the limit 255 succeeds, returns an array of 256 bytes and
leaves the byte at index 255 as it was, so it stores only within indices
0..254 and that byte is still the zero of the `memset`; `strlen` finds a zero byte inside the array and returns a length of at
most 254, hence at most 255 and below the array size 256; and the run reaches
`uart_write` with that array and that length. -/
theorem debug_print_no_overrun {σ : Type} (F : Formatter) (P : Platform σ)
    (junk : Nat → Byte) (fmt : List Byte) (args : List Arg) (s : σ) (tr : List Call) :
    ∃ str n,
      memset ((List.range 256).map junk) 0 (1 * 256) = some (List.replicate 256 0) ∧
      vsnprintf F (List.replicate 256 0) 255 fmt args = some (str, (F fmt args).length) ∧
      str.length = 256 ∧ str.drop 255 = [0] ∧
      (∀ other : Nat → Byte, ∃ b,
        vsnprintf F ((List.range 256).map other) 255 fmt args = some (b, (F fmt args).length) ∧
        b.length = 256 ∧ b.drop 255 = ((List.range 256).map other).drop 255) ∧
      strlen str = some n ∧ str[n]? = some 0 ∧ n ≤ 254 ∧ n ≤ 255 ∧ n < 256 ∧
      syn6658_interface_debug_print F P.logged junk fmt args (s, tr) =
        some ((), ((P.uart_write str (toU16 n) s).2, tr ++ [Call.uart_write str (toU16 n)])) ∧
      toU16 n = n := by
  have h := length_take_254 (F fmt args)
  have h1 := cstring_length_le ((F fmt args).take 254)
  have hz : (List.replicate 256 (0 : Byte)).length = 256 := List.length_replicate _ _
  have hlen : ∀ buf : List Byte, buf.length = 256 →
      ((F fmt args).take 254 ++ 0 :: buf.drop (((F fmt args).take 254).length + 1)).length
        = 256 := by
    intro buf hb
    simp only [List.length_append, List.length_cons, List.length_drop, hb]
    omega
  have hn : toU16 (cstring ((F fmt args).take 254)).length
      = (cstring ((F fmt args).take 254)).length := toU16_of_lt (by omega)
  refine ⟨(F fmt args).take 254 ++ 0 ::
      (List.replicate 256 0).drop (((F fmt args).take 254).length + 1),
    (cstring ((F fmt args).take 254)).length,
    memset_local junk, vsnprintf_local F _ hz fmt args, hlen _ hz,
    (vsnprintf_local_drop F _ fmt args).trans (by decide), ?_,
    strlen_append_zero _ _, getElem?_cstring_length _ _, by omega, by omega, by omega, ?_, hn⟩
  · intro other
    have ho : ((List.range 256).map other).length = 256 := by
      rw [List.length_map, List.length_range]
    exact ⟨_, vsnprintf_local F _ ho fmt args, hlen _ ho, vsnprintf_local_drop F _ fmt args⟩
  · rw [hn, debug_print_logged]
    have h3 : 256 - (((F fmt args).take 254).length + 1)
        = 255 - ((F fmt args).take 254).length := by omega
    simp only [List.drop_replicate, h3]

/-! ## The forwarding operations -/

/-- C4: `syn6658_interface_uart_init()` followed by
`syn6658_interface_uart_write(buf, len)` makes exactly two primitive calls,
`uart2_init(9600)` and then `uart2_write(buf, len)` with the caller's buffer
and length, for every buffer and length, and leaves the board as these two
primitives leave it; with `buf = [0x01, 0x02]` and `len = 2` the write call
hands over the bytes `[0x01, 0x02]`, and the simulated board has been set to
9600 baud and has sent exactly these two bytes. -/
theorem uart_init_then_write {σ : Type} (P : Platform σ) (s : σ) (buf : List Byte) (len : Nat) :
    (syn6658_interface_uart_write P.logged buf len
        (syn6658_interface_uart_init P.logged (s, [])).2).2 =
      ((P.uart2_write buf len (P.uart2_init 9600 s).2).2,
        [Call.uart2_init 9600, Call.uart2_write buf len]) ∧
    (syn6658_interface_uart_write P.logged [1, 2] 2
        (syn6658_interface_uart_init P.logged (s, [])).2).2.2 =
      [Call.uart2_init 9600, Call.uart2_write [1, 2] 2] ∧
    message [1, 2] 2 = [1, 2] ∧
    syn6658_interface_uart_init board.logged (Board.reset, []) =
      (0, ({ Board.reset with uart2_baud := some 9600 }, [Call.uart2_init 9600])) ∧
    syn6658_interface_uart_write board.logged [1, 2] 2
        (syn6658_interface_uart_init board.logged (Board.reset, [])).2 =
      (0, ({ Board.reset with uart2_baud := some 9600, uart2_tx := [1, 2] },
        [Call.uart2_init 9600, Call.uart2_write [1, 2] 2])) :=
  ⟨rfl, rfl, by decide, by decide, by decide⟩

/-- C5: on a platform whose primitives return values in the range of their C
type, each of the ten status-returning adapter operations makes exactly one
call, the call of its corresponding primitive, returns the status that
primitive returned and leaves the board as the primitive left it; so the
operation returns a non-zero status exactly when the primitive did. -/
theorem status_op_forwards_once {σ : Type} (P : Platform σ) (hP : P.InRange) (op : StatusOp)
    (s : σ) (tr : List Call) :
    op.run P.logged (s, tr) = ((op.primitive P s).1, ((op.primitive P s).2, tr ++ [op.call])) ∧
    op.run P s = op.primitive P s ∧
    ((op.run P s).1 ≠ 0 ↔ (op.primitive P s).1 ≠ 0) := by
  have key : op.run P.logged (s, tr)
        = ((op.primitive P s).1, ((op.primitive P s).2, tr ++ [op.call])) ∧
      op.run P s = op.primitive P s := by
    cases op with
    | uart_init =>
        have h := toU8_of_lt (hP.uart2_init 9600 s)
        exact ⟨by simp [StatusOp.run, StatusOp.primitive, StatusOp.call,
          syn6658_interface_uart_init, Platform.logged, h],
          by simp [StatusOp.run, StatusOp.primitive, syn6658_interface_uart_init, h]⟩
    | uart_deinit =>
        have h := toU8_of_lt (hP.uart2_deinit s)
        exact ⟨by simp [StatusOp.run, StatusOp.primitive, StatusOp.call,
          syn6658_interface_uart_deinit, Platform.logged, h],
          by simp [StatusOp.run, StatusOp.primitive, syn6658_interface_uart_deinit, h]⟩
    | uart_flush =>
        have h := toU8_of_lt (hP.uart2_flush s)
        exact ⟨by simp [StatusOp.run, StatusOp.primitive, StatusOp.call,
          syn6658_interface_uart_flush, Platform.logged, h],
          by simp [StatusOp.run, StatusOp.primitive, syn6658_interface_uart_flush, h]⟩
    | uart_write buf len =>
        have h := toU8_of_lt (hP.uart2_write buf len s)
        exact ⟨by simp [StatusOp.run, StatusOp.primitive, StatusOp.call,
          syn6658_interface_uart_write, Platform.logged, h],
          by simp [StatusOp.run, StatusOp.primitive, syn6658_interface_uart_write, h]⟩
    | spi_init =>
        have h := toU8_of_lt (hP.spi_init spi_mode_t.SPI_MODE_0 s)
        exact ⟨by simp [StatusOp.run, StatusOp.primitive, StatusOp.call,
          syn6658_interface_spi_init, Platform.logged, h],
          by simp [StatusOp.run, StatusOp.primitive, syn6658_interface_spi_init, h]⟩
    | spi_deinit =>
        have h := toU8_of_lt (hP.spi_deinit s)
        exact ⟨by simp [StatusOp.run, StatusOp.primitive, StatusOp.call,
          syn6658_interface_spi_deinit, Platform.logged, h],
          by simp [StatusOp.run, StatusOp.primitive, syn6658_interface_spi_deinit, h]⟩
    | spi_transmit tx rx len =>
        have h := toU8_of_lt (hP.spi_transmit tx rx len s)
        exact ⟨by simp [StatusOp.run, StatusOp.primitive, StatusOp.call,
          syn6658_interface_spi_transmit, Platform.logged, h],
          by simp [StatusOp.run, StatusOp.primitive, syn6658_interface_spi_transmit, h]⟩
    | gpio_ready_init =>
        have h := toU8_of_lt (hP.wire_init s)
        exact ⟨by simp [StatusOp.run, StatusOp.primitive, StatusOp.call,
          syn6658_interface_gpio_ready_init, Platform.logged, h],
          by simp [StatusOp.run, StatusOp.primitive, syn6658_interface_gpio_ready_init, h]⟩
    | gpio_ready_deinit =>
        have h := toU8_of_lt (hP.wire_deinit s)
        exact ⟨by simp [StatusOp.run, StatusOp.primitive, StatusOp.call,
          syn6658_interface_gpio_ready_deinit, Platform.logged, h],
          by simp [StatusOp.run, StatusOp.primitive, syn6658_interface_gpio_ready_deinit, h]⟩
    | gpio_ready_read value =>
        have h := toU8_of_lt (hP.wire_read value s)
        exact ⟨by simp [StatusOp.run, StatusOp.primitive, StatusOp.call,
          syn6658_interface_gpio_ready_read, Platform.logged, h],
          by simp [StatusOp.run, StatusOp.primitive, syn6658_interface_gpio_ready_read, h]⟩
  exact ⟨key.1, key.2, by rw [key.2]⟩

/-- C5, at a write on the simulated board after reset: the chip UART is not
initialised, `uart2_write` fails with status 1, and the adapter returns 1
after that single call. -/
theorem status_op_forwards_once_witness :
    board.InRange ∧
    (StatusOp.uart_write [1, 2] 2).run board.logged (Board.reset, []) =
      (((StatusOp.uart_write [1, 2] 2).primitive board Board.reset).1,
        (((StatusOp.uart_write [1, 2] 2).primitive board Board.reset).2,
          [] ++ [(StatusOp.uart_write [1, 2] 2).call])) ∧
    (StatusOp.uart_write [1, 2] 2).run board Board.reset =
      (StatusOp.uart_write [1, 2] 2).primitive board Board.reset ∧
    (((StatusOp.uart_write [1, 2] 2).run board Board.reset).1 ≠ 0 ↔
      ((StatusOp.uart_write [1, 2] 2).primitive board Board.reset).1 ≠ 0) :=
  ⟨board_inRange,
    status_op_forwards_once board board_inRange (StatusOp.uart_write [1, 2] 2) Board.reset []⟩

/-- C6: `syn6658_interface_debug_print` completes for every input and returns
nothing but the board state; with the status of the debug channel write
replaced by any value, and on the platform as it is, the outcome is the same
as on the platform whose write returns success. -/
theorem debug_print_never_fails {σ : Type} (F : Formatter) (P : Platform σ)
    (junk : Nat → Byte) (fmt : List Byte) (args : List Arg) (s : σ) (status : Nat) :
    (syn6658_interface_debug_print F P junk fmt args s).isSome = true ∧
    (syn6658_interface_debug_print F (P.withDebugStatus status) junk fmt args s).isSome = true ∧
    syn6658_interface_debug_print F (P.withDebugStatus status) junk fmt args s =
      syn6658_interface_debug_print F (P.withDebugStatus 0) junk fmt args s ∧
    syn6658_interface_debug_print F P junk fmt args s =
      syn6658_interface_debug_print F (P.withDebugStatus 0) junk fmt args s := by
  simp only [debug_print_run, Option.isSome_some, Platform.withDebugStatus, and_self]

/-- C7: when the count `uart2_read` returns is in the range of `uint16_t`,
`syn6658_interface_uart_read` makes that one call with the caller's buffer
and length and returns the count as it is, together with the buffer as the
primitive left it. -/
theorem uart_read_returns_count {σ : Type} (P : Platform σ) (buf : List Byte) (len : Nat)
    (s : σ) (tr : List Call) (hcount : (P.uart2_read buf len s).1 < 65536) :
    syn6658_interface_uart_read P.logged buf len (s, tr) =
      ((P.uart2_read buf len s).1, (P.uart2_read buf len s).2.1,
        ((P.uart2_read buf len s).2.2, tr ++ [Call.uart2_read buf len])) := by
  simp [syn6658_interface_uart_read, Platform.logged, toU16_of_lt hcount]

/-- C7, at a read of 300 bytes on the simulated board with 300 bytes pending:
the adapter returns the count 300, beyond both a 0/1 status and the range of
`uint8_t`, and the buffer holds the 300 bytes read. -/
theorem uart_read_returns_count_witness :
    (board.uart2_read (List.replicate 300 0) 300 Board.listening).1 < 65536 ∧
    syn6658_interface_uart_read board.logged (List.replicate 300 0) 300 (Board.listening, []) =
      (300, List.replicate 300 7,
        ({ Board.listening with uart2_rx := [] },
          [Call.uart2_read (List.replicate 300 0) 300])) :=
  ⟨by decide,
    (uart_read_returns_count board (List.replicate 300 0) 300 Board.listening []
      (by decide)).trans (by decide)⟩

/-- C8: on a platform whose primitives return values in range and whose
`wire_read` meets its contract, whenever
`syn6658_interface_gpio_ready_read(value)` returns 0 the caller's buffer is
the buffer it had with its first byte replaced by the level of the ready pin,
which is 0 or 1; the buffer is the one `wire_read` left and `wire_read` is the
only call made. -/
theorem gpio_ready_read_one_byte {σ : Type} (P : Platform σ) (level : σ → Byte)
    (value : List Byte) (s : σ) (tr : List Call) (hP : P.InRange)
    (hw : WireReadContract P level)
    (hok : (syn6658_interface_gpio_ready_read P.logged value (s, tr)).1 = 0) :
    (syn6658_interface_gpio_ready_read P.logged value (s, tr)).2.1 = value.set 0 (level s) ∧
    level s ≤ 1 ∧
    (syn6658_interface_gpio_ready_read P.logged value (s, tr)).2.1 = (P.wire_read value s).2.1 ∧
    (syn6658_interface_gpio_ready_read P.logged value (s, tr)).2.2 =
      ((P.wire_read value s).2.2, tr ++ [Call.wire_read value]) := by
  have h := toU8_of_lt (hP.wire_read value s)
  have hprim : (P.wire_read value s).1 = 0 := by
    have hst : toU8 (P.wire_read value s).1 = 0 := hok
    rwa [h] at hst
  exact ⟨(hw value s hprim).1, (hw value s hprim).2, rfl, rfl⟩

/-- C8, at a read of the high ready pin into a one-byte buffer on the
simulated board: the buffer holds the level 1. -/
theorem gpio_ready_read_one_byte_witness :
    board.InRange ∧ WireReadContract board Board.level ∧
    (syn6658_interface_gpio_ready_read board.logged [170] (Board.ready, [])).1 = 0 ∧
    (syn6658_interface_gpio_ready_read board.logged [170] (Board.ready, [])).2.1 = [1] ∧
    ((syn6658_interface_gpio_ready_read board.logged [170] (Board.ready, [])).2.1 =
        [170].set 0 (Board.level Board.ready) ∧
      Board.level Board.ready ≤ 1 ∧
      (syn6658_interface_gpio_ready_read board.logged [170] (Board.ready, [])).2.1 =
        (board.wire_read [170] Board.ready).2.1 ∧
      (syn6658_interface_gpio_ready_read board.logged [170] (Board.ready, [])).2.2 =
        ((board.wire_read [170] Board.ready).2.2, [] ++ [Call.wire_read [170]])) :=
  ⟨board_inRange, board_wireReadContract, by decide, by decide,
    gpio_ready_read_one_byte board Board.level [170] Board.ready [] board_inRange
      board_wireReadContract (by decide)⟩

/-- C9: for every input `syn6658_interface_debug_print` makes exactly one
primitive call, a call of the debug channel write `uart_write`, and none on
the chip UART, the SPI bus or the ready pin; the board is left as that write
leaves it, so every observation of the board that the debug channel write
does not change is unchanged by the call. -/
theorem debug_print_debug_channel_only {σ β : Type} (F : Formatter) (P : Platform σ)
    (junk : Nat → Byte) (fmt : List Byte) (args : List Arg) (s : σ) (tr : List Call)
    (obs : σ → β) (hobs : ∀ buf len t, obs (P.uart_write buf len t).2 = obs t) :
    ∃ st log, syn6658_interface_debug_print F P.logged junk fmt args (s, tr) =
        some ((), (st, tr ++ log)) ∧
      log.length = 1 ∧ (∀ c ∈ log, c.channel = Channel.debug) ∧
      (∃ buf len, log = [Call.uart_write buf len] ∧ st = (P.uart_write buf len s).2) ∧
      obs st = obs s := by
  refine ⟨_, _, debug_print_logged F P junk fmt args s tr, rfl, ?_, ⟨_, _, rfl, rfl⟩,
    hobs _ _ _⟩
  intro c hc
  rw [List.mem_singleton] at hc
  rw [hc]
  rfl

/-- C9, at `debug_print("value=%d", 42)` on the simulated board with the chip
UART initialised: the chip UART, the SPI bus and the ready pin are as
before. -/
theorem debug_print_debug_channel_only_witness :
    (∀ buf len t, Board.transport (board.uart_write buf len t).2 = Board.transport t) ∧
    ∃ st log, syn6658_interface_debug_print render board.logged (fun i => i)
          (ascii "value=%d") [Arg.int 42] (Board.listening, []) =
        some ((), (st, [] ++ log)) ∧
      log.length = 1 ∧ (∀ c ∈ log, c.channel = Channel.debug) ∧
      (∃ buf len, log = [Call.uart_write buf len] ∧
        st = (board.uart_write buf len Board.listening).2) ∧
      Board.transport st = Board.transport Board.listening :=
  ⟨fun _ _ _ => rfl,
    debug_print_debug_channel_only render board (fun i => i) (ascii "value=%d") [Arg.int 42]
      Board.listening [] Board.transport (fun _ _ _ => rfl)⟩

/-- C10: for every input the message `syn6658_interface_debug_print` hands to
`uart_write` is the C string in the first 254 characters of the rendered text,
that is those characters up to but not including their first zero byte; its
length is the length passed, it contains no zero byte, and it is no longer
than the rendered text, so an empty text gives a call of length 0, as the
empty format does.  The text of `"ab%cde"` with the argument 0 has a zero byte
at index 2 and is cut there: the call has length 2 and the message `ab`. -/
theorem debug_print_message_is_cstring {σ : Type} (F : Formatter) (P : Platform σ)
    (junk : Nat → Byte) (fmt : List Byte) (args : List Arg) (s : σ) (tr : List Call) :
    (∃ buf len, syn6658_interface_debug_print F P.logged junk fmt args (s, tr) =
        some ((), ((P.uart_write buf len s).2, tr ++ [Call.uart_write buf len])) ∧
      message buf len = cstring ((F fmt args).take 254) ∧
      (message buf len).length = len ∧
      (∀ b ∈ message buf len, b ≠ 0) ∧
      len ≤ (F fmt args).length) ∧
    (∃ buf, syn6658_interface_debug_print render P.logged junk [] [] (s, tr) =
        some ((), ((P.uart_write buf 0 s).2, tr ++ [Call.uart_write buf 0])) ∧
      render [] [] = [] ∧ message buf 0 = []) ∧
    (∃ buf, syn6658_interface_debug_print render P.logged junk (ascii "ab%cde") [Arg.int 0]
          (s, tr) =
        some ((), ((P.uart_write buf 2 s).2, tr ++ [Call.uart_write buf 2])) ∧
      render (ascii "ab%cde") [Arg.int 0] = [97, 98, 0, 100, 101] ∧
      message buf 2 = [97, 98]) := by
  refine ⟨?_, ?_, ?_⟩
  · have hmsg := message_append_zero ((F fmt args).take 254)
      (List.replicate (255 - ((F fmt args).take 254).length) 0)
    refine ⟨_, _, debug_print_logged F P junk fmt args s tr, hmsg, by rw [hmsg], ?_, ?_⟩
    · rw [hmsg]; exact cstring_nonzero _
    · have h1 := cstring_length_le ((F fmt args).take 254)
      have h2 : ((F fmt args).take 254).length ≤ (F fmt args).length := by
        rw [List.length_take]; omega
      omega
  · have hrun := debug_print_logged render P junk [] [] s tr
    have hr : render [] [] = [] := by decide
    rw [hr] at hrun
    exact ⟨_, hrun, hr, by decide⟩
  · have hr : render (ascii "ab%cde") [Arg.int 0] = [97, 98, 0, 100, 101] := by decide
    have hrun := debug_print_logged render P junk (ascii "ab%cde") [Arg.int 0] s tr
    have hmsg := message_append_zero ((render (ascii "ab%cde") [Arg.int 0]).take 254)
      (List.replicate (255 - ((render (ascii "ab%cde") [Arg.int 0]).take 254).length) 0)
    have hc : (cstring (([97, 98, 0, 100, 101] : List Byte).take 254)) = [97, 98] := by decide
    rw [hr, hc] at hrun hmsg
    exact ⟨_, hrun, rfl, hmsg⟩

end Syn6658
